import Mathlib

/-!
Verification of the SQL flow analyzer's lineage extractor and renderer.

The definitions below are a shallow embedding of `src/sql_analyzer/sql_parser.py`
(class `SQLParser`) and `src/sql_analyzer/visualizer.py` (class `MermaidVisualizer`).
Python strings are modelled as Lean `String`/`List Char`; the behaviour of the
regular expressions used by the source is spelled out as executable scanners with
the exact matching semantics of Python's `re` module (leftmost search, lazy
groups expanding one character at a time, first-alternative-wins alternation,
non-overlapping `findall`); Python's `str.upper`/`str.lower`/`str.strip` are
modelled on their ASCII behaviour, which is exact on the SQL identifier texts the
program manipulates.  The external statement-splitting and classification
service (the `sqlparse` library), which the specification treats as an external
collaborator, is modelled from the spec where noted.  Fallible Python code
(indexing `[0]` into a possibly-empty parse result) is modelled in `Except`.
-/

namespace SQLFlow

/-! ## Python string primitives (ASCII model) -/

/-- Whitespace characters recognised by Python's `\s` and `str.strip` (ASCII part). -/
def isPyWS (c : Char) : Bool :=
  c == ' ' || c == '\t' || c == '\n' || c == '\r' || c == '\x0b' || c == '\x0c'

/-- Python `str.upper`, ASCII part (exact on SQL identifier text). -/
def pyUpperChar (c : Char) : Char :=
  if 97 ≤ c.toNat && c.toNat ≤ 122 then Char.ofNat (c.toNat - 32) else c

/-- Python `str.lower`, ASCII part. -/
def pyLowerChar (c : Char) : Char :=
  if 65 ≤ c.toNat && c.toNat ≤ 90 then Char.ofNat (c.toNat + 32) else c

def upperList (l : List Char) : List Char := l.map pyUpperChar

def lowerList (l : List Char) : List Char := l.map pyLowerChar

def pyUpper (s : String) : String := String.mk (upperList s.data)

def pyLower (s : String) : String := String.mk (lowerList s.data)

/-- Substring scan: does `pat` occur contiguously in the list? -/
def isInfixList (pat : List Char) : List Char → Bool
  | [] => pat.isEmpty
  | c :: cs => pat.isPrefixOf (c :: cs) || isInfixList pat cs

/-- Python `needle in hay` substring test. -/
def containsSub (hay pat : String) : Bool := isInfixList pat.data hay.data

/-- Python `str.strip()` (whitespace from both ends). -/
def stripList (l : List Char) : List Char :=
  ((l.dropWhile isPyWS).reverse.dropWhile isPyWS).reverse

def stripStr (s : String) : String := String.mk (stripList s.data)

/-- Python `s.split(sep, 1)` when `sep` occurs in `s`: the parts before and after
the first occurrence of `sep`.  (When `sep` does not occur, returns `(s, [])`;
the source only unpacks two parts after checking occurrence.) -/
def splitOnFirst (sep : List Char) : List Char → List Char × List Char
  | [] => ([], [])
  | c :: cs =>
    if sep.isPrefixOf (c :: cs) then ([], (c :: cs).drop sep.length)
    else
      let p := splitOnFirst sep cs
      (c :: p.1, p.2)

/-- Python `s.split(sep)[-1]` for `sep = '.'`: the segment after the last dot. -/
def afterLastDot (l : List Char) : List Char :=
  (l.reverse.takeWhile (fun c => c ≠ '.')).reverse

/-- Python `s.split('.')[0]`: the segment before the first dot. -/
def beforeFirstDot (l : List Char) : List Char :=
  l.takeWhile (fun c => c ≠ '.')

/-- Case-insensitive literal-prefix test (Python `re` with `re.IGNORECASE`,
ASCII case folding). -/
def ciPrefix : List Char → List Char → Bool
  | [], _ => true
  | _ :: _, [] => false
  | p :: ps, c :: cs => pyUpperChar p == pyUpperChar c && ciPrefix ps cs

/-- Case-sensitive literal-prefix test. -/
def csPrefix (pat l : List Char) : Bool := pat.isPrefixOf l

/-- Single quote character (used by the model of Python `repr`). -/
def sq : Char := Char.ofNat 39

/-- Python `repr` of a string (no escaping: exact for the identifier/expression
text the program produces). -/
def pyReprStr (s : String) : String := String.mk (sq :: s.data ++ [sq])

def pyReprOptStr : Option String → String
  | none => "None"
  | some s => pyReprStr s

def joinSep (sep : String) : List String → String
  | [] => ""
  | [s] => s
  | s :: rest => s ++ sep ++ joinSep sep rest

/-! ## Data model (`sql_parser.py` dataclasses `Column` and `TableRelation`) -/

structure Column where
  name : String
  source_table : Option String
  transformation : Option String
  deriving DecidableEq

structure TableRelation where
  source : String
  target : String
  operation : String
  columns : List Column
  conditions : List String
  deriving DecidableEq

/-- Python `repr` of a `Column` dataclass instance. -/
def pyReprColumn (c : Column) : String :=
  "Column(name=" ++ pyReprStr c.name ++ ", source_table=" ++ pyReprOptStr c.source_table
    ++ ", transformation=" ++ pyReprOptStr c.transformation ++ ")"

/-- Python `str` of a `List[Column]` value, as used by `rel.target in str(other_rel.columns)`. -/
def pyReprColumns (cs : List Column) : String :=
  "[" ++ joinSep ", " (cs.map pyReprColumn) ++ "]"

/-- The deduplication key used by `parse_queries`: `(rel.source, rel.target, rel.operation)`. -/
def relKey (r : TableRelation) : String × String × String :=
  (r.source, r.target, r.operation)

/-- The order-preserving first-seen-wins deduplication loop of `parse_queries`
(`seen` accumulates the keys already kept). -/
def dedupAux : List TableRelation → List (String × String × String) → List TableRelation
  | [], _ => []
  | r :: rs, seen =>
    if relKey r ∈ seen then dedupAux rs seen
    else r :: dedupAux rs (relKey r :: seen)

def dedupRelations (l : List TableRelation) : List TableRelation := dedupAux l []

/-- First-seen-wins deduplication of strings (models iteration over a Python
set/dict built by insertion; iteration order is modelled as insertion order). -/
def dedupStrAux : List String → List String → List String
  | [], _ => []
  | s :: rest, seen =>
    if s ∈ seen then dedupStrAux rest seen
    else s :: dedupStrAux rest (seen ++ [s])

def dedupStr (l : List String) : List String := dedupStrAux l []

/-! ## Scanners with the semantics of the source's regular expressions -/

/-- Character class `[a-zA-Z_]` (start of the identifier pattern). -/
def isIdentStart (c : Char) : Bool := c.isAlpha || c == '_'

/-- Character class `[a-zA-Z0-9_]` (also Python's ASCII `\w`). -/
def isIdentChar (c : Char) : Bool := c.isAlphanum || c == '_'

/-- Matches `[a-zA-Z_][a-zA-Z0-9_]*(?:\.[a-zA-Z_][a-zA-Z0-9_]*)?` at the front of
the input (the schema-qualified-or-bare identifier pattern); returns the matched
text and the rest. -/
def matchIdent : List Char → Option (List Char × List Char)
  | [] => none
  | c :: cs =>
    if isIdentStart c then
      let seg1 := c :: cs.takeWhile isIdentChar
      let r1 := cs.dropWhile isIdentChar
      match r1 with
      | '.' :: d :: ds =>
        if isIdentStart d then
          some (seg1 ++ '.' :: d :: ds.takeWhile isIdentChar, ds.dropWhile isIdentChar)
        else some (seg1, r1)
      | _ => some (seg1, r1)
    else none

/-- Matches `\s+` (one or more whitespace) at the front; the callers all follow
it with a non-whitespace literal, for which consuming the maximal run is exactly
the regex backtracking behaviour. -/
def munchWS1 : List Char → Option (List Char)
  | [] => none
  | c :: cs => if isPyWS c then some ((c :: cs).dropWhile isPyWS) else none

/-- Leftmost search: the first position at which the matcher succeeds
(`re.search` position scan). -/
def searchFirst (m : List Char → Option α) : List Char → Option α
  | [] => m []
  | c :: cs =>
    match m (c :: cs) with
    | some a => some a
    | none => searchFirst m cs

/-- Non-overlapping left-to-right collection of matches (`re.findall` /
`re.finditer`): on success continue after the match, otherwise advance one
character.  All matchers used consume at least one character, so the fuel
`l.length` never runs out before the scan completes. -/
def findAllAux (m : List Char → Option (α × List Char)) : Nat → List Char → List α
  | 0, _ => []
  | _ + 1, [] => []
  | fuel + 1, c :: cs =>
    match m (c :: cs) with
    | some (a, rest) => a :: findAllAux m fuel rest
    | none => findAllAux m fuel cs

def findAll (m : List Char → Option (α × List Char)) (l : List Char) : List α :=
  findAllAux m l.length l

/-- Lazy group `(.*?)T`: the shortest prefix whose following suffix satisfies
the terminator test; returns the group and the suffix at the terminator. -/
def lazyUntil (term : List Char → Bool) : List Char → Option (List Char × List Char)
  | [] => if term [] then some ([], []) else none
  | c :: cs =>
    if term (c :: cs) then some ([], c :: cs)
    else (lazyUntil term cs).map (fun p => (c :: p.1, p.2))

/-- Matcher for `KW\s+(ident)` (case-insensitive), e.g. the `FROM`/`JOIN`
source-table patterns. -/
def matchKwIdent (kw : List Char) (l : List Char) : Option (String × List Char) :=
  if ciPrefix kw l then
    match munchWS1 (l.drop kw.length) with
    | some r1 => (matchIdent r1).map (fun p => (String.mk p.1, p.2))
    | none => none
  else none

/-- Matcher for `K1\s+K2\s+(ident)` (case-insensitive), e.g. `INSERT\s+INTO` and
`MERGE\s+INTO`. -/
def matchKw2Ident (k1 k2 : List Char) (l : List Char) : Option (String × List Char) :=
  if ciPrefix k1 l then
    match munchWS1 (l.drop k1.length) with
    | some r1 =>
      if ciPrefix k2 r1 then
        match munchWS1 (r1.drop k2.length) with
        | some r2 => (matchIdent r2).map (fun p => (String.mk p.1, p.2))
        | none => none
      else none
    | none => none
  else none

/-- The `(?:INNER\s+JOIN|LEFT\s+JOIN|RIGHT\s+JOIN|JOIN)\s+(ident)` pattern of the
procedure path (alternatives tried left to right). -/
def matchJoinVariant (l : List Char) : Option (String × List Char) :=
  matchKw2Ident "INNER".data "JOIN".data l <|>
  matchKw2Ident "LEFT".data "JOIN".data l <|>
  matchKw2Ident "RIGHT".data "JOIN".data l <|>
  matchKwIdent "JOIN".data l

/-! ## Column projection parsing (`SQLParser._extract_columns`) -/

/-- Terminator test for the lazy group of `SELECT\s+(.*?)\s+FROM`: at this
suffix, one or more whitespace characters followed by `FROM` (case-insensitive).
With the backtracking of `\s+`, this is equivalent to: the suffix starts with
whitespace and `FROM` follows the whitespace run. -/
def wsFromAt (l : List Char) : Bool :=
  match l with
  | c :: _ => isPyWS c && ciPrefix "FROM".data (l.dropWhile isPyWS)
  | [] => false

/-- Match attempt of `SELECT\s+(.*?)\s+FROM` (IGNORECASE | DOTALL) at the current
position, returning the group.  The first branch is the lazy group expanding
from the end of the greedy whitespace run; when that fails, regex backtracking
shortens `\s+` by one, which succeeds with an empty group exactly when the run
has length at least two and `FROM` starts right after it. -/
def trySelectAt (l : List Char) : Option (List Char) :=
  if ciPrefix "SELECT".data l then
    let r := l.drop 6
    match r with
    | c :: _ =>
      if isPyWS c then
        let body := r.dropWhile isPyWS
        match lazyUntil wsFromAt body with
        | some p => some p.1
        | none =>
          if (r.takeWhile isPyWS).length ≥ 2 && ciPrefix "FROM".data body then some []
          else none
      else none
    | [] => none
  else none

/-- The text between `SELECT` and the first `FROM`, per the `select_pattern`
search of `_extract_columns`. -/
def selectGroup (l : List Char) : Option (List Char) := searchFirst trySelectAt l

/-- The comma-splitting loop of `_extract_columns`: split on commas at
parenthesis depth zero (depth incremented on every open and decremented on every
close parenthesis), stripping each piece; a comma at depth zero always emits a
piece, and a trailing piece is emitted only when nonempty before stripping. -/
def splitColsAux : List Char → Int → List Char → List String → List String
  | [], _, cur, acc =>
    if cur.isEmpty then acc.reverse
    else (String.mk (stripList cur.reverse) :: acc).reverse
  | c :: cs, depth, cur, acc =>
    if c == '(' then splitColsAux cs (depth + 1) (c :: cur) acc
    else if c == ')' then splitColsAux cs (depth - 1) (c :: cur) acc
    else if c == ',' && depth == 0 then
      splitColsAux cs depth [] (String.mk (stripList cur.reverse) :: acc)
    else splitColsAux cs depth (c :: cur) acc

def splitTopLevelCommas (l : List Char) : List String := splitColsAux l 0 [] []

/-- The fixed transformation-marker list of `_extract_columns`. -/
def transformationMarkers : List String :=
  ["SUM(", "COUNT(", "AVG(", "COALESCE(", "CASE", "DATE_TRUNC(", "CAST(",
   "UPPER(", "LOWER(", "TRIM(", "CONCAT("]

/-- Python `' AS ' in col.upper()`. -/
def hasAliasTok (col : String) : Bool := isInfixList " AS ".data (upperList col.data)

/-- The per-projection-expression body of `_extract_columns`: alias handling,
source-table extraction, transformation detection. -/
def parseProjection (col : String) : Column :=
  let ep :=
    if hasAliasTok col then
      let p := splitOnFirst " AS ".data (upperList col.data)
      (p.1, p.2)
    else
      (col.data, if col.data.contains '.' then afterLastDot col.data else col.data)
  let exprL := ep.1
  let src :=
    if exprL.contains '.' then some (String.mk (stripList (beforeFirstDot exprL)))
    else none
  let transf :=
    if transformationMarkers.any (fun m => isInfixList m.data (upperList exprL)) then
      some (String.mk exprL)
    else none
  ⟨String.mk (stripList ep.2), src, transf⟩

/-- `SQLParser._extract_columns` on the text of a statement. -/
def extract_columns (s : String) : List Column :=
  match selectGroup s.data with
  | some g => (splitTopLevelCommas g).map parseProjection
  | none => []

/-! ## Model of the external statement-splitting/classification service
(the `sqlparse` library, declared an external collaborator by the spec) -/

/-- Modelled from the spec: the external splitter returns the ordered
semicolon-delimited statement substrings, each stripped, empty pieces dropped
(`sqlparse.split`).  The semicolon stays attached to its statement. -/
def splitStmtsAux : List Char → List Char → List String → List String
  | [], cur, acc => (String.mk cur.reverse :: acc).reverse
  | ';' :: r, cur, acc => splitStmtsAux r [] (String.mk (';' :: cur).reverse :: acc)
  | c :: r, cur, acc => splitStmtsAux r (c :: cur) acc

def sqlparseSplit (s : String) : List String :=
  ((splitStmtsAux s.data [] []).map stripStr).filter (fun t => !t.isEmpty)

def dropBlockComment : List Char → List Char
  | [] => []
  | '*' :: '/' :: r => r
  | _ :: r => dropBlockComment r

def skipWsComments : Nat → List Char → List Char
  | 0, l => l
  | fuel + 1, l =>
    let l1 := l.dropWhile isPyWS
    if csPrefix "--".data l1 then skipWsComments fuel (l1.dropWhile (fun c => c ≠ '\n'))
    else if csPrefix "/*".data l1 then skipWsComments fuel (dropBlockComment (l1.drop 2))
    else l1

/-- Modelled from the spec: the coarse syntactic type tag returned by the
external classification service for a statement (`Statement.get_type`), e.g.
distinguishing INSERT from other kinds; a comment-only or unrecognized
statement gets the tag `UNKNOWN`, and a `WITH`-led statement is tagged by the
query it introduces. -/
def getType (s : String) : String :=
  let r := skipWsComments (s.length + 1) s.data
  let w := String.mk (upperList (r.takeWhile Char.isAlpha))
  if w == "WITH" then "SELECT"
  else if ["SELECT", "INSERT", "UPDATE", "DELETE", "CREATE", "ALTER", "DROP",
            "MERGE", "REPLACE", "TRUNCATE", "GRANT"].contains w then w
  else "UNKNOWN"

/-- Modelled from the spec: `sqlparse.parse` returns the sequence of statements
found in the text; an empty text contains no statement, so the sequence is
empty and the source's `[0]` subscript raises `IndexError`.  A nonempty text
yields its own statement (whose `str` round-trips to the text). -/
def sqlparseParseHead (s : String) : Except String String :=
  if s.isEmpty then .error "IndexError" else .ok s

/-! ## Extractor state and per-statement processors (`SQLParser`) -/

/-- The mutable per-invocation state of `SQLParser` (`__init__`): the relation
accumulator, the CREATE TABLE name set, and the CTE registry (a dict from CTE
name to column list, insertion-ordered). -/
structure ParserState where
  relations : List TableRelation
  tables : List String
  ctes : List (String × List Column)
  deriving DecidableEq

/-- A fresh `SQLParser()` instance: all accumulators empty. -/
def ParserState.empty : ParserState := ⟨[], [], []⟩

/-- Python dict assignment `ctes[k] = v`: overwrite in place or append. -/
def dictInsert (k : String) (v : List Column) (d : List (String × List Column)) :
    List (String × List Column) :=
  if d.any (fun p => p.1 == k) then d.map (fun p => if p.1 == k then (k, v) else p)
  else d ++ [(k, v)]

/-- Python `name in ctes` (dict key membership). -/
def isCteName (ctes : List (String × List Column)) (n : String) : Bool :=
  ctes.any (fun p => p.1 == n)

/-- `CREATE\s+TABLE\s+(?:IF\s+NOT\s+EXISTS\s+)?(ident)` with the optional group
tried first and dropped on failure (regex backtracking). -/
def matchCreateTable (l : List Char) : Option String :=
  if ciPrefix "CREATE".data l then
    match munchWS1 (l.drop 6) with
    | some r1 =>
      if ciPrefix "TABLE".data r1 then
        match munchWS1 (r1.drop 5) with
        | some r2 =>
          let direct := (matchIdent r2).map (fun p => String.mk p.1)
          let withIf :=
            if ciPrefix "IF".data r2 then
              match munchWS1 (r2.drop 2) with
              | some r3 =>
                if ciPrefix "NOT".data r3 then
                  match munchWS1 (r3.drop 3) with
                  | some r4 =>
                    if ciPrefix "EXISTS".data r4 then
                      match munchWS1 (r4.drop 6) with
                      | some r5 => (matchIdent r5).map (fun p => String.mk p.1)
                      | none => none
                    else none
                  | none => none
                else none
              | none => none
            else none
          withIf <|> direct
        | none => none
      else none
    | none => none
  else none

/-- `SQLParser._process_create_table`: record the table name, no relations. -/
def process_create_table (st : ParserState) (s : String) : ParserState :=
  match searchFirst matchCreateTable s.data with
  | some n => if st.tables.contains n then st else { st with tables := st.tables ++ [n] }
  | none => st

/-- `SQLParser._process_insert`: extract the insert target, the FROM/JOIN
sources, the projected columns, and classify each contributing relation. -/
def process_insert (st : ParserState) (s : String) : ParserState :=
  match findAll (matchKw2Ident "INSERT".data "INTO".data) s.data with
  | [] => st
  | target :: _ =>
    let froms := findAll (matchKwIdent "FROM".data) s.data
    let joins := findAll (matchKwIdent "JOIN".data) s.data
    let cols := extract_columns s
    let rels := (froms ++ joins).map (fun src =>
      let op :=
        if containsSub (pyLower src) "staging" || isCteName st.ctes src then "TRANSFORM"
        else if containsSub (pyLower target) "audit" then "AUDIT"
        else "LOAD"
      TableRelation.mk src target op cols [])
    { st with relations := st.relations ++ rels }

/-- `CREATE\s+MATERIALIZED\s+VIEW\s+(ident)`. -/
def matchCreateMatView (l : List Char) : Option String :=
  if ciPrefix "CREATE".data l then
    match munchWS1 (l.drop 6) with
    | some r1 =>
      if ciPrefix "MATERIALIZED".data r1 then
        match munchWS1 (r1.drop 12) with
        | some r2 =>
          if ciPrefix "VIEW".data r2 then
            match munchWS1 (r2.drop 4) with
            | some r3 => (matchIdent r3).map (fun p => String.mk p.1)
            | none => none
          else none
        | none => none
      else none
    | none => none
  else none

/-- `SQLParser._process_materialized_view`. -/
def process_materialized_view (st : ParserState) (s : String) : ParserState :=
  match searchFirst matchCreateMatView s.data with
  | none => st
  | some viewName =>
    let froms := findAll (matchKwIdent "FROM".data) s.data
    let joins := findAll (matchKwIdent "JOIN".data) s.data
    let cols := extract_columns s
    let rels := (froms ++ joins).map (fun src =>
      TableRelation.mk src viewName "TRANSFORM" cols [])
    { st with relations := st.relations ++ rels }

/-! ## Bare CTE statements (`SQLParser._process_cte_statement`) -/

/-- Terminator alternation of the `cte_pattern`
`WITH\s+(.*?)(?:INSERT|MERGE|SELECT\s+\*|SELECT\s+[a-zA-Z_])` at a suffix. -/
def cteTermAt (l : List Char) : Bool :=
  ciPrefix "INSERT".data l || ciPrefix "MERGE".data l ||
  (ciPrefix "SELECT".data l &&
    (match l.drop 6 with
     | c :: _ =>
       isPyWS c &&
         (match (l.drop 6).dropWhile isPyWS with
          | d :: _ => d == '*' || isIdentStart d
          | [] => false)
     | [] => false))

/-- Match attempt of the `cte_pattern` at the current position; the lazy group
stops at the first terminator occurrence (the terminator alternatives all start
with a non-whitespace letter, so shortening the greedy `\s+` can never help). -/
def tryWithAt (l : List Char) : Option (List Char) :=
  if ciPrefix "WITH".data l then
    match l.drop 4 with
    | c :: _ =>
      if isPyWS c then ((lazyUntil cteTermAt ((l.drop 4).dropWhile isPyWS)).map (fun p => p.1))
      else none
    | [] => none
  else none

/-- The CTE section extracted by `_process_cte_statement`'s `cte_pattern` search. -/
def cteSectionOf (s : String) : Option (List Char) := searchFirst tryWithAt s.data

/-- Terminator of the lazy group of `(\w+)\s+AS\s*\((.*?)\)(?:\s*,|\s*$)`: a close
parenthesis followed (after optional whitespace) by a comma or the end. -/
def bareCteTermAt (l : List Char) : Bool :=
  match l with
  | ')' :: r =>
    let r1 := r.dropWhile isPyWS
    r1.isEmpty || (match r1 with | ',' :: _ => true | _ => false)
  | _ => false

/-- One match of `(\w+)\s+AS\s*\((.*?)\)(?:\s*,|\s*$)` (DOTALL, case-sensitive):
CTE name and parenthesized query, consuming through the comma or trailing
whitespace. -/
def matchBareCte (l : List Char) : Option ((String × String) × List Char) :=
  match l with
  | [] => none
  | c :: cs =>
    if isIdentChar c then
      let nameL := c :: cs.takeWhile isIdentChar
      match munchWS1 (cs.dropWhile isIdentChar) with
      | some r2 =>
        if csPrefix "AS".data r2 then
          match (r2.drop 2).dropWhile isPyWS with
          | '(' :: body =>
            match lazyUntil bareCteTermAt body with
            | some (g, rest) =>
              match rest with
              | ')' :: r4 =>
                match r4.dropWhile isPyWS with
                | ',' :: r6 => some ((String.mk nameL, String.mk g), r6)
                | [] => some ((String.mk nameL, String.mk g), [])
                | _ => none
              | _ => none
            | none => none
          | _ => none
        else none
      | none => none
    else none

/-- Body of the per-CTE loop of `_process_cte_statement`: parse the CTE query
(raising `IndexError` when it is empty, since the external parser returns no
statement for an empty text), register its columns, then add one relation per
FROM/JOIN source, classified TRANSFORM for already-registered CTE sources and
EXTRACT otherwise. -/
def processOneBareCte (st : ParserState) (p : String × String) : Except String ParserState :=
  match sqlparseParseHead p.2 with
  | .error e => .error e
  | .ok cteQuery =>
    let cols := extract_columns cteQuery
    let ctes1 := dictInsert p.1 cols st.ctes
    let froms := findAll (matchKwIdent "FROM".data) cteQuery.data
    let joins := findAll (matchKwIdent "JOIN".data) cteQuery.data
    let rels := (froms ++ joins).map (fun src =>
      let op := if isCteName ctes1 src then "TRANSFORM" else "EXTRACT"
      TableRelation.mk src p.1 op cols [])
    .ok { st with ctes := ctes1, relations := st.relations ++ rels }

/-- `SQLParser._process_cte_statement`. -/
def process_cte_statement (st : ParserState) (s : String) : Except String ParserState :=
  match cteSectionOf s with
  | none => .ok st
  | some sec => (findAll matchBareCte sec).foldlM processOneBareCte st

/-! ## MERGE statements (`SQLParser._process_merge`) -/

/-- Terminator of the lazy group of `USING\s*\((.*?)\)\s*AS`: a close parenthesis
followed (after optional whitespace) by `AS` (case-insensitive). -/
def usingTermAt (l : List Char) : Bool :=
  match l with
  | ')' :: r => ciPrefix "AS".data (r.dropWhile isPyWS)
  | _ => false

/-- Match attempt of `USING\s*\((.*?)\)\s*AS` at the current position. -/
def tryUsingAt (l : List Char) : Option (List Char) :=
  if ciPrefix "USING".data l then
    match (l.drop 5).dropWhile isPyWS with
    | '(' :: body => (lazyUntil usingTermAt body).map (fun p => p.1)
    | _ => none
  else none

/-- `SQLParser._process_merge`: target from `MERGE\s+INTO`, sources and columns
from the `USING (...) AS` subquery, every relation classified MERGE; parsing an
empty subquery raises `IndexError`. -/
def process_merge (st : ParserState) (s : String) : Except String ParserState :=
  match findAll (matchKw2Ident "MERGE".data "INTO".data) s.data with
  | [] => .ok st
  | target :: _ =>
    match searchFirst tryUsingAt s.data with
    | none => .ok st
    | some sub =>
      match sqlparseParseHead (String.mk sub) with
      | .error e => .error e
      | .ok subQuery =>
        let cols := extract_columns subQuery
        let froms := findAll (matchKwIdent "FROM".data) subQuery.data
        let joins := findAll (matchKwIdent "JOIN".data) subQuery.data
        let rels := (froms ++ joins).map (fun src =>
          TableRelation.mk src target "MERGE" cols [])
        .ok { st with relations := st.relations ++ rels }

/-! ## Stored procedures (`SQLParser._process_procedure`) -/

/-- Python `s.lower().endswith('_audit')`-style test. -/
def endsWithSub (s : String) (pat : String) : Bool :=
  pat.data.reverse.isPrefixOf s.data.reverse

/-- `CREATE\s+(?:OR\s+REPLACE\s+)?PROCEDURE\s+(ident)`: the optional
`OR REPLACE` group is tried first and abandoned if the rest fails. -/
def matchProcHeader (l : List Char) : Option String :=
  if ciPrefix "CREATE".data l then
    match munchWS1 (l.drop 6) with
    | some afterCreate =>
      let attempt := fun (r : List Char) =>
        if ciPrefix "PROCEDURE".data r then
          match munchWS1 (r.drop 9) with
          | some r2 => (matchIdent r2).map (fun p => String.mk p.1)
          | none => none
        else none
      let withOr :=
        if ciPrefix "OR".data afterCreate then
          match munchWS1 (afterCreate.drop 2) with
          | some r =>
            if ciPrefix "REPLACE".data r then
              match munchWS1 (r.drop 7) with
              | some r2 => attempt r2
              | none => none
            else none
          | none => none
        else none
      withOr <|> attempt afterCreate
    | none => none
  else none

/-- Lookahead of `BEGIN(.*?)(?=EXCEPTION|END;)`. -/
def bodyTermAt (l : List Char) : Bool :=
  ciPrefix "EXCEPTION".data l || ciPrefix "END;".data l

/-- The procedure body: lazy group after the first `BEGIN` that is followed by a
terminator (a later `BEGIN` sees only a subset of terminator positions, so the
leftmost search is exactly this). -/
def procBody (l : List Char) : Option (List Char) :=
  searchFirst
    (fun r =>
      if ciPrefix "BEGIN".data r then (lazyUntil bodyTermAt (r.drop 5)).map (fun p => p.1)
      else none)
    l

/-- Lookahead of the with-section pattern `WITH(.*?)(?=INSERT\s+INTO|MERGE|$)`
(`$` holds at the end of the body or just before a final newline). -/
def withSecTermAt (l : List Char) : Bool :=
  (ciPrefix "INSERT".data l &&
    (match l.drop 6 with
     | c :: _ => isPyWS c && ciPrefix "INTO".data ((l.drop 6).dropWhile isPyWS)
     | [] => false)) ||
  ciPrefix "MERGE".data l || l.isEmpty || l == ['\n']

/-- One match of the with-section pattern: the section after `WITH` up to the
zero-width lookahead, scanning resuming at the lookahead position. -/
def matchWithSection (l : List Char) : Option (List Char × List Char) :=
  if ciPrefix "WITH".data l then lazyUntil withSecTermAt (l.drop 4)
  else none

/-- First lookahead alternative of the procedure CTE pattern:
`\s+[a-zA-Z_][a-zA-Z0-9_]*\s+AS` (the next CTE's head). -/
def procCteLookA (l : List Char) : Bool :=
  match l with
  | c :: _ =>
    isPyWS c &&
      (match l.dropWhile isPyWS with
       | d :: ds =>
         isIdentStart d &&
           (match ds.dropWhile isIdentChar with
            | e :: _ => isPyWS e && csPrefix "AS".data ((ds.dropWhile isIdentChar).dropWhile isPyWS)
            | [] => false)
       | [] => false)
  | [] => false

/-- Second lookahead alternative: `\s*\)\s*(?:INSERT|MERGE|$)` (the end of the
CTE list; the keywords are case-sensitive in this pattern). -/
def procCteLookB (l : List Char) : Bool :=
  match l.dropWhile isPyWS with
  | ')' :: y =>
    let z := y.dropWhile isPyWS
    csPrefix "INSERT".data z || csPrefix "MERGE".data z || z.isEmpty
  | _ => false

def procCteTermAt (l : List Char) : Bool := procCteLookA l || procCteLookB l

/-- One match of the procedure CTE pattern
`([a-zA-Z_][a-zA-Z0-9_]*)\s+AS\s*\((.*?)(?=lookA|lookB)` (DOTALL,
case-sensitive): name and query text, the scan resuming at the zero-width
lookahead. -/
def matchProcCte (l : List Char) : Option ((String × String) × List Char) :=
  match l with
  | [] => none
  | c :: cs =>
    if isIdentStart c then
      let nameL := c :: cs.takeWhile isIdentChar
      match munchWS1 (cs.dropWhile isIdentChar) with
      | some r2 =>
        if csPrefix "AS".data r2 then
          match (r2.drop 2).dropWhile isPyWS with
          | '(' :: body =>
            (lazyUntil procCteTermAt body).map
              (fun p => ((String.mk nameL, String.mk p.1), p.2))
          | _ => none
        else none
      | none => none
    else none

/-- Per-CTE body of the procedure path: like the bare-CTE one but with the
FROM/JOIN patterns of the procedure path (JOIN variants spelled out). -/
def processOneProcCte (st : ParserState) (p : String × String) : Except String ParserState :=
  match sqlparseParseHead p.2 with
  | .error e => .error e
  | .ok cteQuery =>
    let cols := extract_columns cteQuery
    let ctes1 := dictInsert p.1 cols st.ctes
    let froms := findAll (matchKwIdent "FROM".data) cteQuery.data
    let joins := findAll matchJoinVariant cteQuery.data
    let rels := (froms ++ joins).map (fun src =>
      let op := if isCteName ctes1 src then "TRANSFORM" else "EXTRACT"
      TableRelation.mk src p.1 op cols [])
    .ok { st with ctes := ctes1, relations := st.relations ++ rels }

/-- Terminator of the column-list group of the procedure insert pattern:
`\)\s*SELECT`. -/
def insColsTermAt (l : List Char) : Bool :=
  match l with
  | ')' :: y => ciPrefix "SELECT".data (y.dropWhile isPyWS)
  | _ => false

/-- The `\s*ON\s+CONFLICT` alternative at a suffix (case-insensitive). -/
def onConflictAt (l : List Char) : Bool :=
  let z := l.dropWhile isPyWS
  ciPrefix "ON".data z &&
    (match z.drop 2 with
     | c :: _ => isPyWS c && ciPrefix "CONFLICT".data ((z.drop 2).dropWhile isPyWS)
     | [] => false)

/-- Terminator of the SELECT-body group of the procedure insert pattern:
`(?:;|\s*ON\s+CONFLICT|\s*$)`. -/
def insBodyTermAt (l : List Char) : Bool :=
  (match l with | ';' :: _ => true | _ => false) || onConflictAt l || l.all isPyWS

/-- Consume the terminator just matched (for the `finditer` continuation),
alternatives in the pattern's order. -/
def consumeInsTerm (l : List Char) : List Char :=
  match l with
  | ';' :: rest => rest
  | _ =>
    if onConflictAt l then
      let z := l.dropWhile isPyWS
      ((z.drop 2).dropWhile isPyWS).drop 8
    else []

/-- One match of the procedure insert pattern
`INSERT\s+INTO\s+(ident)\s*\((.*?)\)\s*SELECT\s*(.*?)(?:;|\s*ON\s+CONFLICT|\s*$)`
(IGNORECASE | DOTALL): the target and the SELECT body (the column-list group is
unused by the source). -/
def matchProcInsert (l : List Char) : Option ((String × String) × List Char) :=
  match matchKw2Ident "INSERT".data "INTO".data l with
  | none => none
  | some (target, r1) =>
    match r1.dropWhile isPyWS with
    | '(' :: body =>
      match lazyUntil insColsTermAt body with
      | some (_, rest) =>
        match rest with
        | ')' :: r3 =>
          let r4 := r3.dropWhile isPyWS
          if ciPrefix "SELECT".data r4 then
            let r5 := (r4.drop 6).dropWhile isPyWS
            match lazyUntil insBodyTermAt r5 with
            | some (g3, rest3) => some ((target, String.mk g3), consumeInsTerm rest3)
            | none => none
          else none
        | _ => none
      | none => none
    | _ => none

/-- Per-insert body of the procedure path: sources and columns from the SELECT
body, classification TRANSFORM (staging or known CTE source) / AUDIT
(audit-named target) / LOAD, plus one extra relation per registered CTE whose
name appears textually in the SELECT body. -/
def processProcInsert (st : ParserState) (p : String × String) : ParserState :=
  let target := p.1
  let selectStr := p.2
  let cols := extract_columns ("SELECT " ++ selectStr)
  let froms := findAll (matchKwIdent "FROM".data) selectStr.data
  let joins := findAll matchJoinVariant selectStr.data
  let rels1 := (froms ++ joins).map (fun src =>
    let op :=
      if containsSub (pyLower src) "staging" || isCteName st.ctes src then "TRANSFORM"
      else if containsSub (pyLower target) "audit" then "AUDIT"
      else "LOAD"
    TableRelation.mk src target op cols [])
  let rels2 := st.ctes.filterMap (fun q =>
    if containsSub selectStr q.1 then
      some (TableRelation.mk q.1 target
        (if endsWithSub (pyLower target) "_audit" then "AUDIT" else "LOAD") cols [])
    else none)
  { st with relations := st.relations ++ rels1 ++ rels2 }

/-- `SQLParser._process_procedure`. -/
def process_procedure (st : ParserState) (s : String) : Except String ParserState :=
  match searchFirst matchProcHeader s.data with
  | none => .ok st
  | some _ =>
    match procBody s.data with
    | none => .ok st
    | some body =>
      let withSections := findAll matchWithSection body
      match withSections.foldlM
          (fun st sec => (findAll matchProcCte sec).foldlM processOneProcCte st) st with
      | .error e => .error e
      | .ok st1 => .ok ((findAll matchProcInsert body).foldl processProcInsert st1)

/-! ## Post-extraction inference passes of `parse_queries` (lines 61-172),
each scanning the once-deduplicated directly-extracted relation list -/

/-- CTE chaining (lines 61-76): for every relation targeting a registered CTE
and every relation drawing from that CTE, bridge source to target as TRANSFORM. -/
def cteChainPass (ctes : List (String × List Column)) (unique : List TableRelation) :
    List TableRelation :=
  unique.flatMap (fun rel =>
    if isCteName ctes rel.target then
      unique.filterMap (fun o =>
        if o.source == rel.target then
          some (TableRelation.mk rel.source o.target "TRANSFORM" o.columns [])
        else none)
    else [])

/-- Audit propagation (lines 78-93): for every relation into an `_audit`-suffixed
target and every relation feeding that relation's source, add an AUDIT edge. -/
def auditPropPass (unique : List TableRelation) : List TableRelation :=
  unique.flatMap (fun rel =>
    if endsWithSub (pyLower rel.target) "_audit" then
      unique.filterMap (fun o =>
        if o.target == rel.source then
          some (TableRelation.mk o.source rel.target "AUDIT" rel.columns [])
        else none)
    else [])

/-- The set comprehension `{r.target for r in unique if r.operation == 'LOAD'}`;
iteration order of the Python set is modelled as first-insertion order. -/
def loadTargetsOf (unique : List TableRelation) : List String :=
  dedupStr (unique.filterMap (fun r => if r.operation == "LOAD" then some r.target else none))

/-- Staging propagation (lines 95-110): every staging-named source gets a
TRANSFORM edge to every distinct LOAD target. -/
def stagingPropPass (unique : List TableRelation) : List TableRelation :=
  unique.flatMap (fun rel =>
    if containsSub (pyLower rel.source) "staging" then
      (loadTargetsOf unique).map (fun t =>
        TableRelation.mk rel.source t "TRANSFORM" rel.columns [])
    else [])

/-- CTE-to-final-target bridging (lines 112-126): a registered CTE gets a
TRANSFORM edge to every LOAD target whose column payload's textual
representation mentions the CTE's name. -/
def cteFinalTargetPass (ctes : List (String × List Column)) (unique : List TableRelation) :
    List TableRelation :=
  unique.flatMap (fun rel =>
    if isCteName ctes rel.target then
      unique.filterMap (fun o =>
        if o.operation == "LOAD" && containsSub (pyReprColumns o.columns) rel.target then
          some (TableRelation.mk rel.target o.target "TRANSFORM" o.columns [])
        else none)
    else [])

/-- Hardcoded staging-to-`joined_orders` bridging (lines 128-142): a
staging-named source gets a TRANSFORM edge to the literal table `joined_orders`
when that table's relation mentions the staging source in its column payload. -/
def stagingJoinedPass (unique : List TableRelation) : List TableRelation :=
  unique.flatMap (fun rel =>
    if containsSub (pyLower rel.source) "staging" then
      unique.filterMap (fun o =>
        if o.target == "joined_orders" && containsSub (pyReprColumns o.columns) rel.source then
          some (TableRelation.mk rel.source o.target "TRANSFORM" o.columns [])
        else none)
    else [])

/-- Hardcoded `deduplicated`-to-`joined_orders` bridging (lines 144-158). -/
def dedupJoinedPass (unique : List TableRelation) : List TableRelation :=
  unique.flatMap (fun rel =>
    if rel.target == "deduplicated" then
      unique.filterMap (fun o =>
        if o.target == "joined_orders" && containsSub (pyReprColumns o.columns) rel.target then
          some (TableRelation.mk rel.target o.target "TRANSFORM" o.columns [])
        else none)
    else [])

/-- Universal audit trailer (lines 160-172): every LOAD or MERGE relation's
target gets an AUDIT edge to the fixed table `etl_audit`. -/
def auditTrailerPass (unique : List TableRelation) : List TableRelation :=
  unique.filterMap (fun rel =>
    if rel.operation == "LOAD" || rel.operation == "MERGE" then
      some (TableRelation.mk rel.target "etl_audit" "AUDIT" [] [])
    else none)

/-- The combined candidate list `unique_relations + cte_relations +
audit_relations + staging_relations` in the exact append order of the source
(lines 174-175; each accumulator list gathers its two or three loops in
program order). -/
def candidateRelations (ctes : List (String × List Column)) (unique : List TableRelation) :
    List TableRelation :=
  unique
    ++ (cteChainPass ctes unique ++ cteFinalTargetPass ctes unique ++ dedupJoinedPass unique)
    ++ (auditPropPass unique ++ auditTrailerPass unique)
    ++ (stagingPropPass unique ++ stagingJoinedPass unique)

/-- Lines 52-187 of `parse_queries` after per-statement extraction: dedup,
run the inference passes over the deduplicated list, combine, dedup again. -/
def postProcess (ctes : List (String × List Column)) (rels : List TableRelation) :
    List TableRelation :=
  dedupRelations (candidateRelations ctes (dedupRelations rels))

/-! ## Statement classification and `parse_queries` -/

/-- The per-statement dispatch of `parse_queries` (lines 30-50): skip
UNKNOWN-typed statements, then first-match-wins raw-text keyword sniffing in
the source's priority order. -/
def processStatement (st : ParserState) (stmt : String) : Except String ParserState :=
  if getType stmt == "UNKNOWN" then .ok st
  else if containsSub stmt "CREATE PROCEDURE" || containsSub stmt "CREATE OR REPLACE PROCEDURE" then
    process_procedure st stmt
  else if containsSub stmt "CREATE TABLE" then .ok (process_create_table st stmt)
  else if containsSub stmt "WITH" then process_cte_statement st stmt
  else if getType stmt == "INSERT" then .ok (process_insert st stmt)
  else if containsSub stmt "MERGE" then process_merge st stmt
  else if containsSub stmt "CREATE MATERIALIZED VIEW" then
    .ok (process_materialized_view st stmt)
  else .ok st

/-- The extraction phase of `parse_queries`: split the input and process each
statement, threading the parser state. -/
def extractPhase (st : ParserState) (s : String) : Except String ParserState :=
  (sqlparseSplit s).foldlM processStatement st

/-- `SQLParser.parse_queries`: extraction followed by the dedup-and-infer
postlude; the final relation list is both stored back into the instance state
and returned. -/
def parse_queries (st : ParserState) (s : String) :
    Except String (ParserState × List TableRelation) :=
  match extractPhase st s with
  | .error e => .error e
  | .ok st1 =>
    let fin := postProcess st1.ctes st1.relations
    .ok ({ st1 with relations := fin }, fin)

/-- The pre-dedup candidate list that the returned sequence of `parse_queries`
is the first-seen-wins deduplication of (empty when extraction raises). -/
def pipelineCandidates (s : String) : List TableRelation :=
  match extractPhase ParserState.empty s with
  | .ok st => candidateRelations st.ctes (dedupRelations st.relations)
  | .error _ => []

/-- The once-deduplicated directly-extracted relation list for an input. -/
def uniqueOf (s : String) : List TableRelation :=
  match extractPhase ParserState.empty s with
  | .ok st => dedupRelations st.relations
  | .error _ => []

/-- The CTE registry resulting from extraction on an input. -/
def ctesOf (s : String) : List (String × List Column) :=
  match extractPhase ParserState.empty s with
  | .ok st => st.ctes
  | .error _ => []

/-! ## Graph renderer (`visualizer.py`, class `MermaidVisualizer`) -/

/-- `MermaidVisualizer._create_node_id`: replace `.` and `-` by `_` (the two
single-character replacements compose into one character map). -/
def create_node_id (t : String) : String :=
  String.mk (t.data.map (fun c => if c == '.' || c == '-' then '_' else c))

/-- Python truthiness of `col.transformation` (`None` and the empty string are
falsy). -/
def colIsTransformed (c : Column) : Bool :=
  match c.transformation with
  | some t => !t.isEmpty
  | none => false

def fmtRegularCol (c : Column) : String := "• " ++ c.name

def fmtTransformedCol (c : Column) : String :=
  "• " ++ c.name ++ " (" ++ c.transformation.getD "None" ++ ")"

/-- The single-pass grouping loop of `_create_node_def`: transformed and regular
column lines, each in input order. -/
def groupCols : List Column → List String × List String
  | [] => ([], [])
  | c :: cs =>
    let p := groupCols cs
    if colIsTransformed c then (fmtTransformedCol c :: p.1, p.2)
    else (p.1, fmtRegularCol c :: p.2)

/-- The `column_text` assembly of `_create_node_def` (empty when the column list
is falsy). -/
def columnText (cols : List Column) : String :=
  if cols.isEmpty then ""
  else
    let tr := (groupCols cols).1
    let reg := (groupCols cols).2
    (if !reg.isEmpty then "<br/>" ++ joinSep "<br/>" reg else "")
      ++ (if !tr.isEmpty then
            (if !reg.isEmpty then "<br/>---" else "") ++ "<br/>" ++ joinSep "<br/>" tr
          else "")

/-- `MermaidVisualizer._create_node_def` (the style-class side effect on
`table_types` does not affect the definition text). -/
def create_node_def (table : String) (cols : List Column) : String :=
  create_node_id table ++ "[\"" ++ table ++ columnText cols ++ "\"]"

/-- The first pass of `generate_diagram`: emit one `(table, columns)` node per
table name at its first appearance as a source (no columns) or as a target
(that relation's columns), tracking `nodes_seen`. -/
def nodeEmissions : List TableRelation → List String → List (String × List Column)
  | [], _ => []
  | r :: rest, seen =>
    let e1 := if r.source ∈ seen then ([], seen)
      else ([(r.source, ([] : List Column))], seen ++ [r.source])
    let e2 := if r.target ∈ e1.2 then (([] : List (String × List Column)), e1.2)
      else ([(r.target, r.columns)], e1.2 ++ [r.target])
    e1.1 ++ e2.1 ++ nodeEmissions rest e2.2

/-- The node-definition lines emitted by the first pass of `generate_diagram`. -/
def nodeDefLines (rels : List TableRelation) : List String :=
  (nodeEmissions rels []).map (fun p => "  " ++ create_node_def p.1 p.2)

/-- The source/target appearance sequence of a relation list (each relation
contributes its source then its target, in sequence order). -/
def appearanceSeq (rels : List TableRelation) : List String :=
  rels.flatMap (fun r => [r.source, r.target])

/-- Node label as the spec words it: the projected columns grouped into the
regular subset then, after the `---` separator, the transformed subset — stated
with `List.filter` selections rather than the code's single accumulating pass. -/
def specColumnText (cols : List Column) : String :=
  let reg := (cols.filter (fun c => !colIsTransformed c)).map fmtRegularCol
  let tr := (cols.filter colIsTransformed).map fmtTransformedCol
  if cols.isEmpty then ""
  else
    (if !reg.isEmpty then "<br/>" ++ joinSep "<br/>" reg else "")
      ++ (if !tr.isEmpty then
            (if !reg.isEmpty then "<br/>---" else "") ++ "<br/>" ++ joinSep "<br/>" tr
          else "")

/-! ## Properties of the deduplication loop -/

theorem dedupAux_sublist (l : List TableRelation)
    (seen : List (String × String × String)) : (dedupAux l seen).Sublist l := by
  induction l generalizing seen with
  | nil => simp [dedupAux]
  | cons r rs ih =>
    rw [dedupAux]
    by_cases hk : relKey r ∈ seen
    · rw [if_pos hk]
      exact (ih seen).cons r
    · rw [if_neg hk]
      exact (ih _).cons₂ r

theorem dedupAux_key_not_seen (l : List TableRelation)
    (seen : List (String × String × String)) :
    ∀ r ∈ dedupAux l seen, relKey r ∉ seen := by
  induction l generalizing seen with
  | nil => simp [dedupAux]
  | cons h rs ih =>
    intro r hr
    by_cases hk : relKey h ∈ seen
    · rw [dedupAux, if_pos hk] at hr
      exact ih seen r hr
    · rw [dedupAux, if_neg hk] at hr
      rcases List.mem_cons.mp hr with rfl | hr'
      · exact hk
      · intro hs
        exact ih _ r hr' (List.mem_cons_of_mem _ hs)

theorem dedupAux_pairwise (l : List TableRelation)
    (seen : List (String × String × String)) :
    (dedupAux l seen).Pairwise (fun a b => relKey a ≠ relKey b) := by
  induction l generalizing seen with
  | nil => simp [dedupAux]
  | cons h rs ih =>
    rw [dedupAux]
    by_cases hk : relKey h ∈ seen
    · rw [if_pos hk]
      exact ih seen
    · rw [if_neg hk]
      refine List.Pairwise.cons ?_ (ih _)
      intro b hb he
      exact dedupAux_key_not_seen rs _ b hb (he ▸ List.mem_cons_self _ _)

theorem dedupAux_first_occurrence (l : List TableRelation)
    (seen : List (String × String × String)) :
    ∀ r ∈ dedupAux l seen,
      List.find? (fun x => decide (relKey x = relKey r)) l = some r := by
  induction l generalizing seen with
  | nil => simp [dedupAux]
  | cons h rs ih =>
    intro r hr
    by_cases hk : relKey h ∈ seen
    · rw [dedupAux, if_pos hk] at hr
      have hne : ¬ relKey h = relKey r := by
        intro he
        exact dedupAux_key_not_seen rs seen r hr (he ▸ hk)
      rw [List.find?_cons_of_neg _ (by simpa using hne)]
      exact ih seen r hr
    · rw [dedupAux, if_neg hk] at hr
      rcases List.mem_cons.mp hr with rfl | hr'
      · rw [List.find?_cons_of_pos _ (by simp)]
      · have hne : ¬ relKey h = relKey r := by
          intro he
          exact dedupAux_key_not_seen rs _ r hr' (he ▸ List.mem_cons_self _ _)
        rw [List.find?_cons_of_neg _ (by simpa using hne)]
        exact ih _ r hr'

theorem dedupRelations_sublist (l : List TableRelation) : (dedupRelations l).Sublist l :=
  dedupAux_sublist l []

theorem dedupRelations_pairwise (l : List TableRelation) :
    (dedupRelations l).Pairwise (fun a b => relKey a ≠ relKey b) :=
  dedupAux_pairwise l []

theorem dedupRelations_first_occurrence (l : List TableRelation) :
    ∀ r ∈ dedupRelations l,
      List.find? (fun x => decide (relKey x = relKey r)) l = some r :=
  dedupAux_first_occurrence l []

/-! ## Claim C1 -/

/-- C1: for every input string, whenever `parse_queries` returns a relation
sequence, no two distinct relations of it share a `(source, target, operation)`
key, and the relations appear in the insertion order of their first occurrence
in the combined candidate list — the returned sequence is an order-preserving
sublist of that list and every returned relation is the first candidate
carrying its key (the first-seen instance is the keeper). -/
theorem parse_queries_dedup_invariant (s : String) (st : ParserState)
    (out : List TableRelation)
    (h : parse_queries ParserState.empty s = .ok (st, out)) :
    out.Pairwise (fun a b => relKey a ≠ relKey b) ∧
    out.Sublist (pipelineCandidates s) ∧
    ∀ r ∈ out,
      List.find? (fun x => decide (relKey x = relKey r)) (pipelineCandidates s) = some r := by
  unfold parse_queries at h
  cases he : extractPhase ParserState.empty s with
  | error e => rw [he] at h; exact absurd h (by simp)
  | ok st1 =>
    rw [he] at h
    simp only [Except.ok.injEq, Prod.mk.injEq] at h
    have hout : out = postProcess st1.ctes st1.relations := h.2.symm
    have hcand : pipelineCandidates s
        = candidateRelations st1.ctes (dedupRelations st1.relations) := by
      unfold pipelineCandidates
      rw [he]
    subst hout
    unfold postProcess
    rw [hcand]
    exact ⟨dedupRelations_pairwise _, dedupRelations_sublist _,
      dedupRelations_first_occurrence _⟩

/-- Witness for C1 at the empty input, on which `parse_queries` returns the
empty sequence. -/
theorem parse_queries_dedup_invariant_witness :
    (([] : List TableRelation).Pairwise (fun a b => relKey a ≠ relKey b) ∧
    ([] : List TableRelation).Sublist (pipelineCandidates "") ∧
    ∀ r ∈ ([] : List TableRelation),
      List.find? (fun x => decide (relKey x = relKey r)) (pipelineCandidates "") = some r) :=
  parse_queries_dedup_invariant "" ParserState.empty [] (by rfl)

/-! ## Claim C2 -/

/-- C2 (evaluation of the code at the failing input): on the malformed input
`WITH x AS () SELECT * FROM x;` the bare-CTE pattern captures an empty CTE
query, the external parser returns no statement for the empty text, and the
source's `sqlparse.parse(cte_query)[0]` subscript raises `IndexError` —
`parse_queries` does not return a relation sequence. -/
theorem parse_queries_raises_on_empty_cte :
    parse_queries ParserState.empty "WITH x AS () SELECT * FROM x;"
      = .error "IndexError" := by rfl

/-! ## Claim C3 -/

/-- C3 (amended): every relation returned by `parse_queries` is either in the
once-deduplicated directly-extracted relation list or is produced by one of the
seven inference passes — the five named by the claim plus the two hardcoded
`joined_orders`/`deduplicated` bridging passes — each scanning only the
once-deduplicated directly-extracted relation list. -/
theorem parse_queries_inference_passes (s : String) (st : ParserState)
    (out : List TableRelation)
    (h : parse_queries ParserState.empty s = .ok (st, out)) :
    ∀ r ∈ out, r ∈ uniqueOf s
      ∨ r ∈ cteChainPass (ctesOf s) (uniqueOf s)
      ∨ r ∈ auditPropPass (uniqueOf s)
      ∨ r ∈ stagingPropPass (uniqueOf s)
      ∨ r ∈ cteFinalTargetPass (ctesOf s) (uniqueOf s)
      ∨ r ∈ stagingJoinedPass (uniqueOf s)
      ∨ r ∈ dedupJoinedPass (uniqueOf s)
      ∨ r ∈ auditTrailerPass (uniqueOf s) := by
  unfold parse_queries at h
  cases he : extractPhase ParserState.empty s with
  | error e => rw [he] at h; exact absurd h (by simp)
  | ok st1 =>
    rw [he] at h
    simp only [Except.ok.injEq, Prod.mk.injEq] at h
    have hout : out = postProcess st1.ctes st1.relations := h.2.symm
    have hu : uniqueOf s = dedupRelations st1.relations := by
      unfold uniqueOf
      rw [he]
    have hc : ctesOf s = st1.ctes := by
      unfold ctesOf
      rw [he]
    subst hout
    intro r hr
    have hmem : r ∈ candidateRelations st1.ctes (dedupRelations st1.relations) :=
      (dedupRelations_sublist _).subset hr
    rw [hu, hc]
    unfold candidateRelations at hmem
    simp only [List.mem_append] at hmem
    tauto

/-- Witness for the amended C3 at a concrete single-INSERT input and the
single relation it returns. -/
theorem parse_queries_inference_passes_witness :
      TableRelation.mk "staging_sales" "sales_summary" "TRANSFORM"
             [Column.mk "TOTAL" none (some "SUM(AMOUNT)")] []
        ∈ uniqueOf "INSERT INTO sales_summary SELECT SUM(amount) AS total FROM staging_sales;"
      ∨ TableRelation.mk "staging_sales" "sales_summary" "TRANSFORM"
             [Column.mk "TOTAL" none (some "SUM(AMOUNT)")] []
        ∈ cteChainPass
          (ctesOf "INSERT INTO sales_summary SELECT SUM(amount) AS total FROM staging_sales;")
          (uniqueOf "INSERT INTO sales_summary SELECT SUM(amount) AS total FROM staging_sales;")
      ∨ TableRelation.mk "staging_sales" "sales_summary" "TRANSFORM"
             [Column.mk "TOTAL" none (some "SUM(AMOUNT)")] []
        ∈ auditPropPass
          (uniqueOf "INSERT INTO sales_summary SELECT SUM(amount) AS total FROM staging_sales;")
      ∨ TableRelation.mk "staging_sales" "sales_summary" "TRANSFORM"
             [Column.mk "TOTAL" none (some "SUM(AMOUNT)")] []
        ∈ stagingPropPass
          (uniqueOf "INSERT INTO sales_summary SELECT SUM(amount) AS total FROM staging_sales;")
      ∨ TableRelation.mk "staging_sales" "sales_summary" "TRANSFORM"
             [Column.mk "TOTAL" none (some "SUM(AMOUNT)")] []
        ∈ cteFinalTargetPass
          (ctesOf "INSERT INTO sales_summary SELECT SUM(amount) AS total FROM staging_sales;")
          (uniqueOf "INSERT INTO sales_summary SELECT SUM(amount) AS total FROM staging_sales;")
      ∨ TableRelation.mk "staging_sales" "sales_summary" "TRANSFORM"
             [Column.mk "TOTAL" none (some "SUM(AMOUNT)")] []
        ∈ stagingJoinedPass
          (uniqueOf "INSERT INTO sales_summary SELECT SUM(amount) AS total FROM staging_sales;")
      ∨ TableRelation.mk "staging_sales" "sales_summary" "TRANSFORM"
             [Column.mk "TOTAL" none (some "SUM(AMOUNT)")] []
        ∈ dedupJoinedPass
          (uniqueOf "INSERT INTO sales_summary SELECT SUM(amount) AS total FROM staging_sales;")
      ∨ TableRelation.mk "staging_sales" "sales_summary" "TRANSFORM"
             [Column.mk "TOTAL" none (some "SUM(AMOUNT)")] []
        ∈ auditTrailerPass
          (uniqueOf "INSERT INTO sales_summary SELECT SUM(amount) AS total FROM staging_sales;") :=
  parse_queries_inference_passes
    "INSERT INTO sales_summary SELECT SUM(amount) AS total FROM staging_sales;"
    ⟨[TableRelation.mk "staging_sales" "sales_summary" "TRANSFORM"
        [Column.mk "TOTAL" none (some "SUM(AMOUNT)")] []], [], []⟩
    [TableRelation.mk "staging_sales" "sales_summary" "TRANSFORM"
        [Column.mk "TOTAL" none (some "SUM(AMOUNT)")] []]
    (by rfl)
    (TableRelation.mk "staging_sales" "sales_summary" "TRANSFORM"
        [Column.mk "TOTAL" none (some "SUM(AMOUNT)")] [])
    (List.mem_singleton.mpr rfl)

/-- The input refuting C3 as stated: two standalone INSERTs, the first into the
literal table `joined_orders` with a projection mentioning `staging_y`. -/
def c3CexInput : String :=
  "INSERT INTO joined_orders SELECT staging_y.a FROM staging_x;\nINSERT INTO t2 SELECT b FROM staging_y;"

def c3RelA : TableRelation :=
  ⟨"staging_x", "joined_orders", "TRANSFORM", [⟨"a", some "staging_y", none⟩], []⟩

def c3RelB : TableRelation :=
  ⟨"staging_y", "t2", "TRANSFORM", [⟨"b", none, none⟩], []⟩

def c3Inferred : TableRelation :=
  ⟨"staging_y", "joined_orders", "TRANSFORM", [⟨"a", some "staging_y", none⟩], []⟩

/-- C3 counterexample: on `c3CexInput` the returned sequence contains
`c3Inferred`, a relation that is not directly extracted and is produced only by
the hardcoded staging-to-`joined_orders` bridging pass — none of the five
inference passes named by the claim yields it, so the claim as stated is false
on this input. -/
theorem inference_five_passes_counterexample :
    parse_queries ParserState.empty c3CexInput
      = .ok (⟨[c3RelA, c3RelB, c3Inferred], [], []⟩, [c3RelA, c3RelB, c3Inferred]) ∧
    extractPhase ParserState.empty c3CexInput = .ok ⟨[c3RelA, c3RelB], [], []⟩ ∧
    c3Inferred ∉ [c3RelA, c3RelB] ∧
    c3Inferred ∈ stagingJoinedPass (uniqueOf c3CexInput) ∧
    c3Inferred ∉ cteChainPass (ctesOf c3CexInput) (uniqueOf c3CexInput) ∧
    c3Inferred ∉ auditPropPass (uniqueOf c3CexInput) ∧
    c3Inferred ∉ stagingPropPass (uniqueOf c3CexInput) ∧
    c3Inferred ∉ cteFinalTargetPass (ctesOf c3CexInput) (uniqueOf c3CexInput) ∧
    c3Inferred ∉ auditTrailerPass (uniqueOf c3CexInput) :=
  ⟨by rfl, by rfl, by decide, by decide, by decide, by decide, by decide, by decide, by decide⟩

/-! ## Claim C4 -/

/-- C4: for the input
`INSERT INTO sales_summary SELECT SUM(amount) AS total FROM staging_sales;`
`parse_queries` returns exactly one relation — source `staging_sales`, target
`sales_summary`, operation TRANSFORM, columns
`[Column(name="TOTAL", source_table=None, transformation="SUM(AMOUNT)")]` —
and no audit-trailer relation is added (the trailer pass fires only for LOAD
and MERGE relations, and this insert is classified TRANSFORM). -/
theorem insert_scenario_single_transform :
    parse_queries ParserState.empty
        "INSERT INTO sales_summary SELECT SUM(amount) AS total FROM staging_sales;"
      = .ok (⟨[⟨"staging_sales", "sales_summary", "TRANSFORM",
                 [⟨"TOTAL", none, some "SUM(AMOUNT)"⟩], []⟩], [], []⟩,
             [⟨"staging_sales", "sales_summary", "TRANSFORM",
                 [⟨"TOTAL", none, some "SUM(AMOUNT)"⟩], []⟩]) := by rfl

/-! ## Claim C5 -/

/-- C5 (evaluation of the code at the claim's input): on
`WITH recent AS (SELECT id FROM orders) SELECT * FROM recent;` the returned
sequence is empty — the claimed relation `(orders, recent, EXTRACT)` is absent
because the `cte_pattern`'s lazy group stops at the CTE's own inner `SELECT`,
leaving a CTE section without a closing parenthesis that the CTE-splitting
pattern cannot match. -/
theorem cte_scenario_returns_empty :
    parse_queries ParserState.empty
        "WITH recent AS (SELECT id FROM orders) SELECT * FROM recent;"
      = .ok (ParserState.empty, []) := by rfl

/-! ## Claim C6 -/

/-- C6: for the MERGE statement the returned sequence is exactly the MERGE
relation `staging_customer → dim_customer` followed by the inferred AUDIT
relation from `dim_customer` to the fixed audit table `etl_audit` (MERGE is in
the audit-trailer pass's trigger set). -/
theorem merge_scenario_relations :
    parse_queries ParserState.empty
        "MERGE INTO dim_customer USING (SELECT id FROM staging_customer) AS src ON dim_customer.id = src.id;"
      = .ok (⟨[⟨"staging_customer", "dim_customer", "MERGE", [⟨"id", none, none⟩], []⟩,
               ⟨"dim_customer", "etl_audit", "AUDIT", [], []⟩], [], []⟩,
             [⟨"staging_customer", "dim_customer", "MERGE", [⟨"id", none, none⟩], []⟩,
              ⟨"dim_customer", "etl_audit", "AUDIT", [], []⟩]) := by rfl

/-! ## Claim C7 -/

/-- C7: running the Extractor twice on identical input — two single-use
`SQLParser` instances, each freshly constructed — yields identical relation
sequences, same content in the same order (the extractor holds no other state
and its processing is deterministic). -/
theorem extractor_runs_identical (s : String) (p q : ParserState)
    (hp : p = ParserState.empty) (hq : q = ParserState.empty) :
    parse_queries p s = parse_queries q s := by
  subst hp
  subst hq
  rfl

/-- Witness for C7 at a concrete input. -/
theorem extractor_runs_identical_witness :
    parse_queries ParserState.empty
        "INSERT INTO fact_orders SELECT id FROM staging_orders;"
      = parse_queries ParserState.empty
        "INSERT INTO fact_orders SELECT id FROM staging_orders;" :=
  extractor_runs_identical
    "INSERT INTO fact_orders SELECT id FROM staging_orders;"
    ParserState.empty ParserState.empty rfl rfl

/-! ## Claim C8 -/

/-- C8: the projection text between `SELECT` and the first `FROM` is split on
top-level commas only — the depth counter makes commas inside balanced
parentheses not split — so the projection list `a, COALESCE(b,c) AS d, e`
splits into exactly three expressions, not five, and `_extract_columns`
produces exactly three columns from it. -/
theorem column_split_top_level_commas :
    splitTopLevelCommas "a, COALESCE(b,c) AS d, e".data
      = ["a", "COALESCE(b,c) AS d", "e"] ∧
    (splitTopLevelCommas "a, COALESCE(b,c) AS d, e".data).length = 3 ∧
    (extract_columns "SELECT a, COALESCE(b,c) AS d, e FROM t").length = 3 :=
  ⟨by rfl, by rfl, by rfl⟩

/-! ## Claim C9 -/

theorem dedupStrAux_not_seen (l : List String) (seen : List String) :
    ∀ s ∈ dedupStrAux l seen, s ∉ seen := by
  induction l generalizing seen with
  | nil => simp [dedupStrAux]
  | cons h rs ih =>
    intro s hs
    by_cases hk : h ∈ seen
    · rw [dedupStrAux, if_pos hk] at hs
      exact ih seen s hs
    · rw [dedupStrAux, if_neg hk] at hs
      rcases List.mem_cons.mp hs with rfl | hs'
      · exact hk
      · intro hmem
        exact ih _ s hs' (List.mem_append.mpr (Or.inl hmem))

theorem dedupStrAux_nodup (l : List String) (seen : List String) :
    (dedupStrAux l seen).Nodup := by
  induction l generalizing seen with
  | nil => simp [dedupStrAux]
  | cons h rs ih =>
    rw [dedupStrAux]
    by_cases hk : h ∈ seen
    · rw [if_pos hk]
      exact ih seen
    · rw [if_neg hk]
      refine List.Pairwise.cons ?_ (ih _)
      intro b hb he
      exact dedupStrAux_not_seen rs _ b hb
        (he ▸ List.mem_append.mpr (Or.inr (List.mem_singleton.mpr rfl)))

/-- The node-emission loop tracks `nodes_seen` exactly as first-occurrence
string deduplication does over the source/target appearance sequence. -/
theorem nodeEmissions_names (rels : List TableRelation) (seen : List String) :
    (nodeEmissions rels seen).map Prod.fst = dedupStrAux (appearanceSeq rels) seen := by
  induction rels generalizing seen with
  | nil => rfl
  | cons r rest ih =>
    have happ : appearanceSeq (r :: rest) = r.source :: r.target :: appearanceSeq rest := by
      simp [appearanceSeq]
    rw [happ]
    by_cases h1 : r.source ∈ seen
    · by_cases h2 : r.target ∈ seen
      · simp [nodeEmissions, h1, h2, dedupStrAux, ih]
      · simp [nodeEmissions, h1, h2, dedupStrAux, ih]
    · by_cases h2 : r.target ∈ seen ++ [r.source]
      · simp [nodeEmissions, h1, h2, dedupStrAux, ih]
      · simp [nodeEmissions, h1, h2, dedupStrAux, ih]

/-- The single-pass column grouping of `_create_node_def` computes the two
filter-selected sublists of the spec's wording. -/
theorem groupCols_eq_filter (cols : List Column) :
    groupCols cols = ((cols.filter colIsTransformed).map fmtTransformedCol,
                      (cols.filter (fun c => !colIsTransformed c)).map fmtRegularCol) := by
  induction cols with
  | nil => rfl
  | cons c cs ih =>
    by_cases hc : colIsTransformed c
    · simp [groupCols, hc, ih, List.filter_cons]
    · simp [groupCols, hc, ih, List.filter_cons]

theorem columnText_eq_spec (cols : List Column) : columnText cols = specColumnText cols := by
  unfold columnText specColumnText
  rw [groupCols_eq_filter]

/-- C9: over any relation sequence, the renderer emits exactly one node
definition per distinct table name at its first appearance as a source or a
target — the emitted name sequence is the first-occurrence deduplication of the
source/target appearance sequence, with no duplicates — and every node
definition's label is the table name followed by the projected columns grouped
into the regular subset and then, after the `---` separator, the transformed
subset (empty label when the column list is empty). -/
theorem renderer_nodes_first_seen (rels : List TableRelation) :
    (nodeEmissions rels []).map Prod.fst = dedupStr (appearanceSeq rels) ∧
    ((nodeEmissions rels []).map Prod.fst).Nodup ∧
    ∀ table cols, create_node_def table cols
      = create_node_id table ++ "[\"" ++ table ++ specColumnText cols ++ "\"]" := by
  refine ⟨nodeEmissions_names rels [], ?_, ?_⟩
  · rw [nodeEmissions_names rels []]
    exact dedupStrAux_nodup _ _
  · intro t cols
    unfold create_node_def
    rw [columnText_eq_spec]

/-! ## Claim C10 -/

theorem char_toNat_ofNat_valid (n : Nat) (h : n.isValidChar) :
    (Char.ofNat n).toNat = n := by
  simp [Char.ofNat, h]
  rfl

theorem pyUpperChar_not_lower (c : Char) :
    ¬(97 ≤ (pyUpperChar c).toNat ∧ (pyUpperChar c).toNat ≤ 122) := by
  unfold pyUpperChar
  by_cases h : 97 ≤ c.toNat ∧ c.toNat ≤ 122
  · rw [if_pos (by simpa using h)]
    have hv : (c.toNat - 32).isValidChar := Or.inl (by omega)
    rw [char_toNat_ofNat_valid _ hv]
    omega
  · rw [if_neg (by simpa using h)]
    exact h

/-- No character of the string is an ASCII lowercase letter (the visible effect
of the text having been taken from `col.upper()`). -/
def noLowerStr (s : String) : Prop :=
  ∀ c ∈ s.data, ¬(97 ≤ c.toNat ∧ c.toNat ≤ 122)

theorem upperList_no_lower (l : List Char) :
    ∀ c ∈ upperList l, ¬(97 ≤ c.toNat ∧ c.toNat ≤ 122) := by
  intro c hc
  obtain ⟨d, _, rfl⟩ := List.mem_map.mp hc
  exact pyUpperChar_not_lower d

theorem infix_of_prefix_suffix {a b c : List Char} (h1 : a <+: b) (h2 : b <:+ c) :
    a <:+: c := by
  obtain ⟨t, rfl⟩ := h1
  obtain ⟨u, rfl⟩ := h2
  exact ⟨u, t, by simp⟩

theorem stripList_infixOf (l : List Char) : stripList l <:+: l := by
  have h1 : l.dropWhile isPyWS <:+ l := List.dropWhile_suffix isPyWS
  have h2 : ((l.dropWhile isPyWS).reverse.dropWhile isPyWS).reverse
      <+: (l.dropWhile isPyWS).reverse.reverse :=
    List.reverse_prefix.mpr (List.dropWhile_suffix isPyWS)
  rw [List.reverse_reverse] at h2
  exact infix_of_prefix_suffix h2 h1

theorem splitOnFirst_snd_suffix (sep : List Char) (l : List Char) :
    (splitOnFirst sep l).2 <:+ l := by
  induction l with
  | nil => simp [splitOnFirst]
  | cons c cs ih =>
    rw [splitOnFirst]
    by_cases hp : sep.isPrefixOf (c :: cs)
    · rw [if_pos hp]
      exact List.drop_suffix _ _
    · rw [if_neg hp]
      exact ih.trans (List.suffix_cons c cs)

theorem splitOnFirst_fst_prefixOf (sep : List Char) (l : List Char) :
    (splitOnFirst sep l).1 <+: l := by
  induction l with
  | nil => simp [splitOnFirst]
  | cons c cs ih =>
    rw [splitOnFirst]
    by_cases hp : sep.isPrefixOf (c :: cs)
    · rw [if_pos hp]
      exact List.nil_prefix
    · rw [if_neg hp]
      obtain ⟨t, ht⟩ := ih
      refine ⟨t, ?_⟩
      show (c :: (splitOnFirst sep cs).1) ++ t = c :: cs
      rw [List.cons_append, ht]

theorem afterLastDot_suffix (l : List Char) : afterLastDot l <:+ l := by
  have h : (l.reverse.takeWhile (fun c => c ≠ '.')).reverse <:+ l.reverse.reverse :=
    List.reverse_suffix.mpr (List.takeWhile_prefix _)
  rw [List.reverse_reverse] at h
  exact h

theorem beforeFirstDot_prefixOf (l : List Char) : beforeFirstDot l <+: l :=
  List.takeWhile_prefix _

theorem infix_of_infix_suffix {a b c : List Char} (h1 : a <:+: b) (h2 : b <:+ c) :
    a <:+: c := by
  obtain ⟨u, t, rfl⟩ := h1
  obtain ⟨w, rfl⟩ := h2
  exact ⟨w ++ u, t, by simp⟩

theorem infix_of_infix_prefixOf {a b c : List Char} (h1 : a <:+: b) (h2 : b <+: c) :
    a <:+: c := by
  obtain ⟨u, t, rfl⟩ := h1
  obtain ⟨w, rfl⟩ := h2
  exact ⟨u, t ++ w, by simp⟩

/-- Characterization of `parseProjection` on an expression with the alias
token: all three fields come from the uppercased expression text. -/
theorem parseProjection_alias (col : String) (h : hasAliasTok col = true) :
    parseProjection col =
      (let p := splitOnFirst " AS ".data (upperList col.data)
       ⟨String.mk (stripList p.2),
        if p.1.contains '.' then some (String.mk (stripList (beforeFirstDot p.1))) else none,
        if transformationMarkers.any (fun m => isInfixList m.data (upperList p.1)) then
          some (String.mk p.1)
        else none⟩) := by
  unfold parseProjection
  rw [h]
  rfl

/-- Characterization of `parseProjection` on an expression without the alias
token: the fields come from the original expression text. -/
theorem parseProjection_noAlias (col : String) (h : hasAliasTok col = false) :
    parseProjection col =
      ⟨String.mk (stripList
          (if col.data.contains '.' then afterLastDot col.data else col.data)),
       if col.data.contains '.' then some (String.mk (stripList (beforeFirstDot col.data)))
       else none,
       if transformationMarkers.any (fun m => isInfixList m.data (upperList col.data)) then
         some (String.mk col.data)
       else none⟩ := by
  unfold parseProjection
  rw [h]
  rfl

/-- C10: in `_extract_columns`, whenever a projection expression contains the
alias token `' AS '` (any case, per `col.upper()`), the produced Column's name,
its transformation when recorded, and its source table when dot-qualified are
all taken from the uppercased expression text — none of their characters is a
lowercase ASCII letter — whereas for an expression without the alias token the
name and the source table are contiguous fragments of the original expression,
preserving its character case. -/
theorem projection_alias_case_handling (col : String) :
    (hasAliasTok col = true →
       noLowerStr (parseProjection col).name ∧
       (∀ s, (parseProjection col).source_table = some s → noLowerStr s) ∧
       (∀ t, (parseProjection col).transformation = some t → noLowerStr t)) ∧
    (hasAliasTok col = false →
       (parseProjection col).name.data <:+: col.data ∧
       (∀ s, (parseProjection col).source_table = some s → s.data <:+: col.data)) := by
  constructor
  · intro hAlias
    rw [parseProjection_alias col hAlias]
    refine ⟨?_, ?_, ?_⟩
    · intro c hc
      have hsub : stripList (splitOnFirst " AS ".data (upperList col.data)).2
          ⊆ upperList col.data := fun x hx =>
        (splitOnFirst_snd_suffix _ _).subset ((stripList_infixOf _).subset hx)
      exact upperList_no_lower _ _ (hsub hc)
    · intro s hs
      dsimp only at hs
      split at hs
      · obtain rfl := Option.some.inj hs
        intro c hc
        have hsub : stripList (beforeFirstDot (splitOnFirst " AS ".data (upperList col.data)).1)
            ⊆ upperList col.data := fun x hx =>
          (splitOnFirst_fst_prefixOf _ _).subset
            ((beforeFirstDot_prefixOf _).subset ((stripList_infixOf _).subset hx))
        exact upperList_no_lower _ _ (hsub hc)
      · exact absurd hs (by simp)
    · intro t ht
      dsimp only at ht
      split at ht
      · obtain rfl := Option.some.inj ht
        intro c hc
        exact upperList_no_lower _ _ ((splitOnFirst_fst_prefixOf _ _).subset hc)
      · exact absurd ht (by simp)
  · intro hAlias
    rw [parseProjection_noAlias col hAlias]
    constructor
    · show (String.mk (stripList
          (if col.data.contains '.' then afterLastDot col.data else col.data))).data
        <:+: col.data
      split
      · exact infix_of_infix_suffix (stripList_infixOf _) (afterLastDot_suffix _)
      · exact stripList_infixOf _
    · intro s hs
      split at hs
      · obtain rfl := Option.some.inj hs
        exact infix_of_infix_prefixOf (stripList_infixOf _) (beforeFirstDot_prefixOf _)
      · exact absurd hs (by simp)

/-- Witness for C10, at an aliased and a non-aliased concrete expression. -/
theorem projection_alias_case_handling_witness :
    (noLowerStr (parseProjection "staging_x.amt AS total").name ∧
       (∀ s, (parseProjection "staging_x.amt AS total").source_table = some s → noLowerStr s) ∧
       (∀ t, (parseProjection "staging_x.amt AS total").transformation = some t → noLowerStr t)) ∧
    ((parseProjection "Staging_X.Amt").name.data <:+: "Staging_X.Amt".data ∧
       (∀ s, (parseProjection "Staging_X.Amt").source_table = some s →
          s.data <:+: "Staging_X.Amt".data)) :=
  ⟨(projection_alias_case_handling "staging_x.amt AS total").1 (by rfl),
   (projection_alias_case_handling "Staging_X.Amt").2 (by rfl)⟩

end SQLFlow
